import Mathlib

/-!
Verification development for the `dpd-utils` repository.

Shallow embedding of:
- `dpdutils/inrix/roadway/api.py` (report polling, report download),
- `dpdutils/inrix/roadway/datapro.py` (archive holder, segment-to-corridor aggregation),
- `dpdutils/swiftly/api.py` (rate-limited API call loop),
- `dpdutils/swiftly/datapro.py` (speed-map segment reshaping),
- `dpdutils/bata.py` (traffic volume reshaper).

Machine floats are modelled as rationals; pandas tables as lists of records;
the two bounded `while` loops as fuel-indexed structural recursion whose fuel
provably exceeds the loop bound.
-/

namespace Dpd

/-! ### inrix.roadway.api: wait_for_report_completion -/

/-- `check_interval = 10` seconds between status polls. -/
def checkInterval : Nat := 10

/-- `max_wait = 60 * 10` seconds: the ten-minute ceiling. -/
def maxWait : Nat := 60 * 10

/-- Outcome of `wait_for_report_completion`: either a normal return after the
`k`-th status poll (0-indexed) reported `"COMPLETED"`, or an `InrixTimeout`
raised with the elapsed time recorded at the raise. -/
inductive WaitResult where
  | completed (pollIdx : Nat)
  | timeout (elapsed : Nat)
deriving DecidableEq, Repr

/-- The `while report_status["state"] != "COMPLETED"` loop.  On entry poll `k`
has been observed unequal to `"COMPLETED"` and `elapsed = checkInterval * k`
(each `time.sleep(check_interval)` advances the idealized clock by exactly
`check_interval`).  The loop body checks `elapsed >= max_wait`, raising
`InrixTimeout`, otherwise sleeps, takes poll `k+1` and loops.  `fuel` bounds
the recursion; it is unreachable at 0 whenever `maxWait ≤ checkInterval * (k + fuel)`. -/
def pollLoop (statuses : Nat → String) : Nat → Nat → WaitResult
  | 0, k => WaitResult.timeout (checkInterval * k)
  | fuel + 1, k =>
    if maxWait ≤ checkInterval * k then WaitResult.timeout (checkInterval * k)
    else if statuses (k + 1) = "COMPLETED" then WaitResult.completed (k + 1)
    else pollLoop statuses fuel (k + 1)

/-- `wait_for_report_completion`, with the status endpoint abstracted as the
sequence of states its successive polls report. -/
def wait_for_report_completion (statuses : Nat → String) : WaitResult :=
  if statuses 0 = "COMPLETED" then WaitResult.completed 0
  else pollLoop statuses 61 0

/-! ### inrix.roadway.api: report download -/

/-- An HTTP response: status code and raw body bytes. -/
structure HttpResponse where
  status : Nat
  content : List Nat
deriving DecidableEq, Repr

/-- Python exceptions surfaced by the download path. -/
inductive PyError where
  | httpError (code : Nat)
  | notImplementedError (msg : String)
  | indexError
  | keyError
  | fileNotFoundError
  | valueError (code : Nat)
deriving DecidableEq, Repr

/-- `requests.Response.raise_for_status`: raises `HTTPError` exactly for 4xx
and 5xx status codes, otherwise does nothing. -/
def raise_for_status (r : HttpResponse) : Except PyError Unit :=
  if 400 ≤ r.status ∧ r.status < 600 then Except.error (PyError.httpError r.status)
  else Except.ok ()

/-- The report descriptor returned by the result endpoint: its download URLs. -/
structure ReportData where
  urls : List String
deriving DecidableEq, Repr

/-- `get_report_data`: a GET on the data-downloader endpoint followed by
`r.raise_for_status()` and `r.json()`.  The transport is abstracted as the
response received and the descriptor its body parses to. -/
def get_report_data (r : HttpResponse) (parsed : ReportData) : Except PyError ReportData :=
  match raise_for_status r with
  | Except.error e => Except.error e
  | Except.ok _ => Except.ok parsed

/-- `get_report_bytes`: rejects descriptors with more than one URL with
`NotImplementedError`, then GETs `report_data["urls"][0]` (an `IndexError` on
an empty list) and returns `r.content` — with no status check on `r`. -/
def get_report_bytes (fetch : String → HttpResponse) (report_data : ReportData) :
    Except PyError (List Nat) :=
  if 1 < report_data.urls.length then
    Except.error (PyError.notImplementedError "Report contains multiple urls")
  else
    match report_data.urls with
    | [] => Except.error PyError.indexError
    | u :: _ => Except.ok (fetch u).content

/-! ### swiftly.api: make_api_call -/

/-- `max_attempts = 10`. -/
def max_attempts : Nat := 10

/-- What `make_api_call` comes back with: the JSON of attempt `k` (1-indexed),
an `HTTPError` from `raise_for_status`, or the fallback `ValueError` for a
status that is neither 200 nor 4xx/5xx. -/
inductive ApiOutcome where
  | json (attempt : Nat)
  | httpError (code : Nat)
  | valueError (code : Nat)
deriving DecidableEq, Repr

/-- Result of the call loop, together with the attempts made and the total
seconds spent in `time.sleep(1000)`. -/
structure ApiResult where
  outcome : ApiOutcome
  attempts : Nat
  slept : Nat
deriving DecidableEq, Repr

/-- The `while keep_trying` loop of `make_api_call`.  `statuses k` is the HTTP
status of the `k`-th request (1-indexed), `attempt` the value of
`attempt_number` before the next increment, `slept` the seconds slept so far.
A status 200 ends the loop and returns the response JSON; 429 sleeps 1000
seconds and retries while `attempt_number < max_attempts`, else raises; any
other status hits `raise_for_status` (HTTPError on 4xx/5xx) and then the
unconditional `ValueError`.  The fuel bounds the recursion; with fuel
`max_attempts - attempt` the 0 case is unreachable because retries stop at
`attempt_number = max_attempts`. -/
def apiLoop (statuses : Nat → Nat) : Nat → Nat → Nat → ApiResult
  | 0, attempt, slept => ApiResult.mk (ApiOutcome.valueError 0) attempt slept
  | fuel + 1, attempt, slept =>
    let a := attempt + 1
    let code := statuses a
    if code = 200 then ApiResult.mk (ApiOutcome.json a) a slept
    else if code = 429 then
      if a < max_attempts then apiLoop statuses fuel a (slept + 1000)
      else ApiResult.mk (ApiOutcome.httpError 429) a slept
    else if 400 ≤ code ∧ code < 600 then ApiResult.mk (ApiOutcome.httpError code) a slept
    else ApiResult.mk (ApiOutcome.valueError code) a slept

/-- `make_api_call`, with the endpoint abstracted as the sequence of HTTP
status codes its successive requests receive. -/
def make_api_call (statuses : Nat → Nat) : ApiResult :=
  apiLoop statuses max_attempts 0 0

/-! ### inrix.roadway.datapro: CorridorReportZip.read_zip

The zip archive is modelled by its root directory name (`z.namelist()[0]`) and
its members (full member name, raw text).  Parsing a CSV/JSON member into a
table is treated as an opaque successful decode, so a loaded table is
represented by the member's raw text.  `zipfile.ZipFile.open` raises `KeyError`
on a missing member name. -/

structure RaZip where
  root : String
  members : List (String × String)
deriving DecidableEq, Repr

/-- Look up a member by full name (`KeyError` if absent). -/
def zipOpen (z : RaZip) (target : String) : Except PyError String :=
  match z.members.lookup target with
  | none => Except.error PyError.keyError
  | some contents => Except.ok contents

/-- The mutable `CorridorReportZip` holder: `self.ra_zip`, `self.data`,
`self.metadata`, `self.report_contents` (all `None` in `__init__`). -/
structure Holder where
  ra_zip : Option RaZip
  data : Option String
  metadata : Option String
  report_contents : Option String
deriving DecidableEq, Repr

/-- `CorridorReportZip.__init__`. -/
def Holder.init : Holder := Holder.mk none none none none

/-- `__load_data`: open `{zip_root}data.csv`, assign `self.data`. -/
def load_data (z : RaZip) (h : Holder) : Except PyError Holder :=
  match zipOpen z (z.root ++ "data.csv") with
  | Except.error e => Except.error e
  | Except.ok c => Except.ok { h with data := some c }

/-- `__load_metadata`: open `{zip_root}metadata.csv`, assign `self.metadata`. -/
def load_metadata (z : RaZip) (h : Holder) : Except PyError Holder :=
  match zipOpen z (z.root ++ "metadata.csv") with
  | Except.error e => Except.error e
  | Except.ok c => Except.ok { h with metadata := some c }

/-- `__load_report_contents`: open `{zip_root}reportContents.json`, assign
`self.report_contents`. -/
def load_report_contents (z : RaZip) (h : Holder) : Except PyError Holder :=
  match zipOpen z (z.root ++ "reportContents.json") with
  | Except.error e => Except.error e
  | Except.ok c => Except.ok { h with report_contents := some c }

/-- What `read_zip` comes back with: Python's implicit `None` on success, the
explicit `False` when a `FileNotFoundError` was caught, or a propagated
exception. -/
inductive ReadZipRet where
  | retNone
  | retFalse
deriving DecidableEq, Repr

/-- The `try` block of `read_zip`: `except FileNotFoundError: return False`;
any other exception is re-raised.  The holder state at the moment the
exception escapes is returned alongside. -/
def catchFnf (h : Holder) (e : PyError) : Holder × Except PyError ReadZipRet :=
  if e = PyError.fileNotFoundError then (h, Except.ok ReadZipRet.retFalse)
  else (h, Except.error e)

/-- `read_zip` on an in-memory zip (the `bytes` branch of the input
housekeeping): assigns `self.ra_zip`, then runs the three private loaders in
order inside one `try`.  Each loader assigns its table to the holder as soon
as it succeeds.  Returns the final holder state and the call's outcome. -/
def read_zip (z : RaZip) (h0 : Holder) : Holder × Except PyError ReadZipRet :=
  let h1 : Holder := { h0 with ra_zip := some z }
  match load_data z h1 with
  | Except.error e => catchFnf h1 e
  | Except.ok h2 =>
    match load_metadata z h2 with
    | Except.error e => catchFnf h2 e
    | Except.ok h3 =>
      match load_report_contents z h3 with
      | Except.error e => catchFnf h3 e
      | Except.ok h4 => (h4, Except.ok ReadZipRet.retNone)

/-! ### inrix.roadway.datapro: segment-to-corridor aggregation

`__get_format_data_for_agg` produces rows with columns
`Corridor/Region Name`, `Date`, `Time Interval`, `Segment ID`,
`Travel Time(Minutes)`; `FRow` is such a row.  Travel times and lengths
(float64 in pandas) are modelled as rationals. -/

structure FRow where
  corridor : String
  date : String
  interval : String
  segId : Int
  travelTime : ℚ
deriving DecidableEq, Repr

/-- A `(Corridor/Region Name, Date, Time Interval)` groupby key. -/
abbrev GKey := String × String × String

def keyOf (r : FRow) : GKey := (r.corridor, r.date, r.interval)

/-- The distinct groupby keys of `data_formatted.groupby(gb_cols)`. -/
def gkeys (rows : List FRow) : List GKey := (rows.map keyOf).dedup

/-- `.sum()` of `Travel Time(Minutes)` within one group. -/
def gsum (rows : List FRow) (k : GKey) : ℚ :=
  ((rows.filter fun r => keyOf r = k).map FRow.travelTime).sum

/-- `.count()` of `Travel Time(Minutes)` within one group (the `alt_count`
column): the number of observation rows the group contains. -/
def gcount (rows : List FRow) (k : GKey) : Nat :=
  (rows.filter fun r => keyOf r = k).length

/-- One row of `metadata.csv`: `Segment ID`, `Segment Length(Miles)`. -/
structure MetaRow where
  segId : Int
  segLength : ℚ
deriving DecidableEq, Repr

/-- One corridor definition from `reportContents.json`. -/
structure Corridor where
  name : String
  xdSegIds : List Int
deriving DecidableEq, Repr

structure ReportContents where
  corridors : List Corridor
deriving DecidableEq, Repr

/-- The `for corridor in self.report_contents["corridors"]` loop writes
`Corridor Length(Miles)` and `Segment Count` per corridor name, so the last
definition with a given name wins; a name never written keeps NaN, which the
later `==` filter treats as matching nothing. -/
def configLookup (rc : ReportContents) (name : String) : Option Corridor :=
  rc.corridors.foldl (fun acc c => if c.name = name then some c else acc) none

/-- `corridor_metadata["Segment Length(Miles)"].sum()` over the metadata rows
whose `Segment ID` is in the corridor's `xdSegIds`. -/
def corridorLength (meta : List MetaRow) (segs : List Int) : ℚ :=
  ((meta.filter fun m => m.segId ∈ segs).map MetaRow.segLength).sum

/-- One row of the filtered `data_agg` frame after the speed column is added. -/
structure AggRow where
  key : GKey
  travelTime : ℚ
  corridorLen : ℚ
  segCount : Nat
  speed : ℚ
deriving DecidableEq, Repr

/-- `__create_data_agg`: group the formatted rows by
`(Corridor/Region Name, Date, Time Interval)` summing travel time; attach each
configured corridor's length and segment count; keep only groups whose
`alt_count` equals the configured `Segment Count` (groups of unconfigured
corridors carry NaN and are dropped); then derive
`Speed(miles/hour) = Corridor Length(Miles) / Travel Time(Minutes) * 60`. -/
def create_data_agg (rows : List FRow) (meta : List MetaRow) (rc : ReportContents) :
    List AggRow :=
  (gkeys rows).filterMap fun k =>
    match configLookup rc k.1 with
    | none => none
    | some c =>
      if c.xdSegIds.length = gcount rows k then
        some (AggRow.mk k (gsum rows k) (corridorLength meta c.xdSegIds) c.xdSegIds.length
          (corridorLength meta c.xdSegIds / gsum rows k * 60))
      else none

/-! ### inrix.roadway.datapro: segments_to_corridor output shaping -/

/-- Numeric value of an ASCII digit character. -/
def digitVal (c : Char) : Nat := c.toNat - 48

/-- Civil date to days since 1970-01-01 (proleptic Gregorian). -/
def daysFromCivil (y m d : Int) : Int :=
  let yy := if m ≤ 2 then y - 1 else y
  let era := (if 0 ≤ yy then yy else yy - 399) / 400
  let yoe := yy - era * 400
  let mp := (m + 9) % 12
  let doy := (153 * mp + 2) / 5 + d - 1
  let doe := yoe * 365 + yoe / 4 - yoe / 100 + doy
  era * 146097 + doe - 719468

def weekdayNames : List String :=
  ["Monday", "Tuesday", "Wednesday", "Thursday", "Friday", "Saturday", "Sunday"]

/-- `pd.to_datetime(final["Date"]).dt.strftime("%A")` on an ISO `YYYY-MM-DD`
date string: the English weekday name (1970-01-01 was a Thursday). -/
def dayOfWeek (date : String) : String :=
  match date.data with
  | [y1, y2, y3, y4, _, m1, m2, _, d1, d2] =>
    let y : Int := Int.ofNat (1000 * digitVal y1 + 100 * digitVal y2 + 10 * digitVal y3 + digitVal y4)
    let m : Int := Int.ofNat (10 * digitVal m1 + digitVal m2)
    let d : Int := Int.ofNat (10 * digitVal d1 + digitVal d2)
    let idx := ((daysFromCivil y m d + 3) % 7 + 7) % 7
    weekdayNames.getD idx.toNat ""
  | _ => ""

/-- One row of the `long` output: the reset index columns, the inserted
`Day of Week`, and the two kept metric columns. -/
structure LongRow where
  corridor : String
  date : String
  dayOfWeek : String
  interval : String
  speed : ℚ
  travelTime : ℚ
deriving DecidableEq, Repr

/-- One row of the `wide` output of `pivot_table`: indexed by
`(Corridor/Region Name, Date)` with the inserted `Day of Week` and one cell
per distinct `Time Interval` column (NaN, i.e. `none`, where the group is
absent). -/
structure WideRow where
  corridor : String
  date : String
  dayOfWeek : String
  cells : List (String × Option ℚ)
deriving DecidableEq, Repr

inductive StcOut where
  | long (rows : List LongRow)
  | wide (rows : List WideRow)
deriving DecidableEq, Repr

/-- `pivot_table` of the aggregated frame on index
`(Corridor/Region Name, Date)`, columns `Time Interval`, values `metric`
(group keys are unique, so aggregation is plain lookup). -/
def pivotAgg (agg : List AggRow) (metric : AggRow → ℚ) : List WideRow :=
  let ivs := (agg.map fun a => a.key.2.2).dedup
  let idx := (agg.map fun a => (a.key.1, a.key.2.1)).dedup
  idx.map fun p =>
    WideRow.mk p.1 p.2 (dayOfWeek p.2)
      (ivs.map fun iv => (iv, (agg.find? fun a => a.key = (p.1, p.2, iv)).map metric))

/-- `segments_to_corridor`: validate `out_format` and `wide_metric` (building
the messages exactly as the source does, including its interpolation of
`out_format` into the `wide_metric` message), then aggregate via
`__create_data_agg` and shape the result.  `wide_metric=None` is `none`. -/
def segments_to_corridor (rows : List FRow) (meta : List MetaRow) (rc : ReportContents)
    (out_format : String) (wide_metric : Option String) : Except String StcOut :=
  if ¬(out_format = "wide" ∨ out_format = "long") then
    Except.error ("out_format is '" ++ out_format ++ "', should be 'wide' or 'long'")
  else if out_format = "wide" ∧ ¬(wide_metric = some "speed" ∨ wide_metric = some "travel_time") then
    Except.error ("wide_metric is '" ++ out_format ++ "', should be 'speed' or 'travel_time'")
  else
    let data_agg := create_data_agg rows meta rc
    if out_format = "wide" then
      if wide_metric = some "speed" then Except.ok (StcOut.wide (pivotAgg data_agg AggRow.speed))
      else Except.ok (StcOut.wide (pivotAgg data_agg AggRow.travelTime))
    else
      Except.ok (StcOut.long (data_agg.map fun a =>
        LongRow.mk a.key.1 a.key.2.1 (dayOfWeek a.key.2.1) a.key.2.2 a.speed a.travelTime))

/-! ### swiftly.datapro: speed_map_segs_to_geojson

A Python dict is modelled as an association list with distinct keys; the
values a speed-map segment dict holds are numbers, strings, stop references,
or the `pathLocs` list of `{lat, lon}` points. -/

structure PathLoc where
  lat : ℚ
  lon : ℚ
deriving DecidableEq, Repr

inductive PyVal where
  | num (q : ℚ)
  | str (s : String)
  | int (n : Int)
  | locs (l : List PathLoc)
  | none
deriving DecidableEq, Repr

abbrev Dict := List (String × PyVal)

/-- `d[k]` lookup. -/
def dictGet (k : String) (d : Dict) : Option PyVal := d.lookup k

/-- `del d[k]` / the removal part of `d.pop(k)`: drop the key's entry. -/
def dictDel (k : String) (d : Dict) : Dict := d.filter fun kv => kv.1 ≠ k

/-- `d[k] = v`: overwrite in place or append a new entry. -/
def dictSet (k : String) (v : PyVal) (d : Dict) : Dict :=
  if (d.lookup k).isSome then d.map fun kv => if kv.1 = k then (k, v) else kv
  else d ++ [(k, v)]

/-- `seg.pop('pathLocs')` result, defaulting to the empty path if absent. -/
def asLocs : Option PyVal → List PathLoc
  | some (PyVal.locs l) => l
  | _ => []

structure Feature where
  coordinates : List (List ℚ)
  properties : Dict
deriving DecidableEq, Repr

structure GeoJson where
  features : List Feature
deriving DecidableEq, Repr

/-- The loop body of `speed_map_segs_to_geojson` applied to the `i`-th dict of
the deep copy: `del seg['fromStop']`, `del seg['toStop']`, `seg['order'] = i`,
`pathLocs = seg.pop('pathLocs')`, coordinates `[[p['lon'], p['lat']] ...]`. -/
def buildFeature (i : Nat) (seg : Dict) : Feature :=
  let seg1 := dictDel "fromStop" seg
  let seg2 := dictDel "toStop" seg1
  let seg3 := dictSet "order" (PyVal.int (Int.ofNat i)) seg2
  let pathLocs := asLocs (dictGet "pathLocs" seg3)
  let seg4 := dictDel "pathLocs" seg3
  Feature.mk (pathLocs.map fun p => [p.lon, p.lat]) seg4

/-- `speed_map_segs_to_geojson`: the mutations above are performed on
`seg_list_copy = copy.deepcopy(seg_list)`, a fresh unaliased value, so the
caller's list after the call (second component) is the input itself. -/
def speed_map_segs_to_geojson (seg_list : List Dict) : GeoJson × List Dict :=
  let seg_list_copy := seg_list
  let feats := (seg_list_copy.enum.map fun p => buildFeature p.1 p.2)
  (GeoJson.mk feats, seg_list)

/-! ### bata.py: ctvr_to_long

A cleaned `DAILY BY HOUR BY LANE` row (after the dropna and column
truncation) has a `Date`, a `Day` label, a `Lane ID`, and a volume for each
of the 24 fixed hour-range columns.  A calendar date is modelled by its day
number (days since an epoch), so `pd.to_datetime` on `date + " " + hhmmss`
yields the second count `86400 * date + 3600 * hh + 60 * mm + ss`. -/

/-- The `time_cols` list of bata.py. -/
def time_cols : List String :=
  ["0000-0100", "0100-0200", "0200-0300", "0300-0400", "0400-0500", "0500-0600",
   "0600-0700", "0700-0800", "0800-0900", "0900-1000", "1000-1100", "1100-1200",
   "1200-1300", "1300-1400", "1400-1500", "1500-1600", "1600-1700", "1700-1800",
   "1800-1900", "1900-2000", "2000-2100", "2100-2200", "2200-2300", "2300-2400"]

/-- Seconds after midnight named by the first four characters (`HHMM`) of an
hour-range label: `data["Hour"].str.slice(stop=4)`. -/
def hourStartSec (hour : String) : Nat :=
  match hour.data with
  | c1 :: c2 :: c3 :: c4 :: _ =>
    3600 * (10 * digitVal c1 + digitVal c2) + 60 * (10 * digitVal c3 + digitVal c4)
  | _ => 0

/-- `pd.to_datetime(data["Date"].astype("str") + " " + data["Hour"].str.slice(stop=4) + "01")`:
the date combined with the hour-range's start time plus the deliberate one
extra second, as seconds since the epoch. -/
def rowTimestamp (date : Nat) (hour : String) : Nat :=
  86400 * date + hourStartSec hour + 1

/-- One cleaned input row: `Date`, `Day`, `Lane ID` and the 24 hour columns
(volume looked up by column label). -/
structure CtvrRow where
  date : Nat
  day : String
  lane : Int
  vol : String → ℚ

/-- One melted row: `id_vars` plus the `Hour` label and its `Volume`. -/
structure MeltRow where
  date : Nat
  day : String
  lane : Int
  hour : String
  volume : ℚ

/-- `data.melt(id_vars=other_cols, value_vars=time_cols, ...)`: one row per
(hour column, input row), in pandas' variable-major order. -/
def meltCtvr (rows : List CtvrRow) : List MeltRow :=
  time_cols.flatMap fun h => rows.map fun r => MeltRow.mk r.date r.day r.lane h (r.vol h)

/-- The four output shapes of the aggregation branch. -/
inductive CtvrOut where
  | raw (l : List (Nat × Int × ℚ))
  | byTs (l : List (Nat × ℚ))
  | byDateLane (l : List ((Nat × Int) × ℚ))
  | byDate (l : List (Nat × ℚ))

/-- Row count of an output table. -/
def outLen : CtvrOut → Nat
  | CtvrOut.raw l => l.length
  | CtvrOut.byTs l => l.length
  | CtvrOut.byDateLane l => l.length
  | CtvrOut.byDate l => l.length

/-- The reshape-and-aggregate core of `ctvr_to_long` (Excel loading and CSV
writing are I/O outside the model): melt, build the timestamp column, then
branch on the two flags.  A groupby emits one row per distinct key, with the
group's summed volume. -/
def ctvr_to_long (rows : List CtvrRow) (sum_lanes sum_hours : Bool) : CtvrOut :=
  let data := meltCtvr rows
  if ¬sum_lanes ∧ ¬sum_hours then
    CtvrOut.raw (data.map fun m => (rowTimestamp m.date m.hour, m.lane, m.volume))
  else if sum_lanes ∧ ¬sum_hours then
    let ks := (data.map fun m => rowTimestamp m.date m.hour).dedup
    CtvrOut.byTs (ks.map fun t =>
      (t, ((data.filter fun m => rowTimestamp m.date m.hour = t).map MeltRow.volume).sum))
  else if ¬sum_lanes ∧ sum_hours then
    let ks := (data.map fun m => (m.date, m.lane)).dedup
    CtvrOut.byDateLane (ks.map fun k =>
      (k, ((data.filter fun m => (m.date, m.lane) = k).map MeltRow.volume).sum))
  else
    let ks := (data.map fun m => m.date).dedup
    CtvrOut.byDate (ks.map fun d =>
      (d, ((data.filter fun m => m.date = d).map MeltRow.volume).sum))

/-- A valid input table: one row per (day, lane) of a full grid, with
arbitrary `Day` labels and volumes. -/
def mkCtvrRows (dates : List Nat) (lanes : List Int) (day : Nat → String)
    (vols : Nat → Int → String → ℚ) : List CtvrRow :=
  dates.flatMap fun d => lanes.map fun l => CtvrRow.mk d (day d) l (vols d l)

/-! ## Theorems -/

/-! ### C3: wait_for_report_completion -/

lemma pollLoop_spec (st : Nat → String) :
    ∀ fuel k, 60 < k + fuel → k ≤ 60 →
      (∀ e, pollLoop st fuel k = WaitResult.timeout e →
        e = maxWait ∧ ∀ j, k < j → j ≤ 60 → st j ≠ "COMPLETED") ∧
      (∀ m, pollLoop st fuel k = WaitResult.completed m →
        k < m ∧ m ≤ 60 ∧ st m = "COMPLETED" ∧ ∀ j, k < j → j < m → st j ≠ "COMPLETED") ∧
      ((∀ j, k < j → j ≤ 60 → st j ≠ "COMPLETED") →
        pollLoop st fuel k = WaitResult.timeout maxWait) := by
  intro fuel
  induction fuel with
  | zero => intro k h1 h2; omega
  | succ fuel ih =>
    intro k h1 h2
    by_cases hk : maxWait ≤ checkInterval * k
    · have hk60 : k = 60 := by
        simp only [maxWait, checkInterval] at hk; omega
      have helapsed : checkInterval * k = maxWait := by
        simp only [maxWait, checkInterval, hk60]
      refine ⟨?_, ?_, ?_⟩
      · intro e he
        simp only [pollLoop, if_pos hk] at he
        refine ⟨by simpa [helapsed] using he.symm, ?_⟩
        intro j hj1 hj2
        omega
      · intro m hm
        simp only [pollLoop, if_pos hk] at hm
        simp at hm
      · intro _
        simp only [pollLoop, if_pos hk, helapsed]
        simp
    · have hklt : k < 60 := by
        simp only [maxWait, checkInterval] at hk; omega
      by_cases hc : st (k + 1) = "COMPLETED"
      · refine ⟨?_, ?_, ?_⟩
        · intro e he
          simp only [pollLoop, if_neg hk, if_pos hc] at he
          simp at he
        · intro m hm
          simp only [pollLoop, if_neg hk, if_pos hc, WaitResult.completed.injEq] at hm
          subst hm
          exact ⟨by omega, by omega, hc, by omega⟩
        · intro hall
          exact absurd hc (hall (k + 1) (by omega) (by omega))
      · have hrec : pollLoop st (fuel + 1) k = pollLoop st fuel (k + 1) := by
          simp only [pollLoop, if_neg hk, if_neg hc]
        obtain ⟨ihA, ihB, ihC⟩ := ih (k + 1) (by omega) (by omega)
        refine ⟨?_, ?_, ?_⟩
        · intro e he
          rw [hrec] at he
          obtain ⟨he1, he2⟩ := ihA e he
          refine ⟨he1, ?_⟩
          intro j hj1 hj2
          rcases Nat.eq_or_lt_of_le (Nat.succ_le_of_lt hj1) with h | h
          · simpa [← h] using hc
          · exact he2 j h hj2
        · intro m hm
          rw [hrec] at hm
          obtain ⟨hm1, hm2, hm3, hm4⟩ := ihB m hm
          refine ⟨by omega, hm2, hm3, ?_⟩
          intro j hj1 hj2
          rcases Nat.eq_or_lt_of_le (Nat.succ_le_of_lt hj1) with h | h
          · simpa [← h] using hc
          · exact hm4 j h hj2
        · intro hall
          rw [hrec]
          exact ihC fun j hj1 hj2 => hall j (by omega) hj2

/-- **C3.** `wait_for_report_completion` polls on the fixed 10-second
interval and raises `InrixTimeout` exactly when no poll taken while the
elapsed time was still within the fixed 10-minute ceiling reported
`"COMPLETED"`; a timeout is only ever raised with the full ceiling elapsed
(never before the ceiling is reached), and the wait returns normally at the
first completed poll. -/
theorem wait_for_report_completion_spec (st : Nat → String) :
    (∀ e, wait_for_report_completion st = WaitResult.timeout e → e = maxWait) ∧
    (wait_for_report_completion st = WaitResult.timeout maxWait ↔
      ∀ k, checkInterval * k ≤ maxWait → st k ≠ "COMPLETED") ∧
    (∀ m, wait_for_report_completion st = WaitResult.completed m →
      st m = "COMPLETED" ∧ checkInterval * m ≤ maxWait ∧ ∀ j < m, st j ≠ "COMPLETED") ∧
    ((∃ k, checkInterval * k ≤ maxWait ∧ st k = "COMPLETED") →
      ∃ m, wait_for_report_completion st = WaitResult.completed m ∧
        st m = "COMPLETED" ∧ ∀ j < m, st j ≠ "COMPLETED") := by
  have hk60 : ∀ k : Nat, checkInterval * k ≤ maxWait ↔ k ≤ 60 := by
    intro k; simp only [checkInterval, maxWait]; omega
  obtain ⟨hA, hB, hC⟩ := pollLoop_spec st 61 0 (by omega) (by omega)
  by_cases h0 : st 0 = "COMPLETED"
  · have hw : wait_for_report_completion st = WaitResult.completed 0 := by
      simp [wait_for_report_completion, h0]
    refine ⟨?_, ?_, ?_, ?_⟩
    · intro e he; rw [hw] at he; exact absurd he (by simp)
    · constructor
      · intro he; rw [hw] at he; exact absurd he (by simp)
      · intro hall; exact absurd h0 (hall 0 (by simp [checkInterval, maxWait]))
    · intro m hm
      rw [hw] at hm
      obtain rfl : m = 0 := by simpa using hm.symm
      exact ⟨h0, by simp [checkInterval, maxWait], by omega⟩
    · intro _; exact ⟨0, hw, h0, by omega⟩
  · have hw : wait_for_report_completion st = pollLoop st 61 0 := by
      simp [wait_for_report_completion, h0]
    refine ⟨?_, ?_, ?_, ?_⟩
    · intro e he; rw [hw] at he; exact (hA e he).1
    · constructor
      · intro he k hk
        rw [hw] at he
        rcases Nat.eq_zero_or_pos k with rfl | hpos
        · exact h0
        · exact (hA maxWait he).2 k hpos ((hk60 k).1 hk)
      · intro hall
        rw [hw]
        exact hC fun j hj1 hj2 => hall j ((hk60 j).2 hj2)
    · intro m hm
      rw [hw] at hm
      obtain ⟨hm1, hm2, hm3, hm4⟩ := hB m hm
      refine ⟨hm3, (hk60 m).2 hm2, ?_⟩
      intro j hj
      rcases Nat.eq_zero_or_pos j with rfl | hpos
      · exact h0
      · exact hm4 j hpos hj
    · intro ⟨k, hk1, hk2⟩
      rcases hres : pollLoop st 61 0 with m | e
      · obtain ⟨hm1, hm2, hm3, hm4⟩ := hB m hres
        refine ⟨m, by rw [hw, hres], hm3, ?_⟩
        intro j hj
        rcases Nat.eq_zero_or_pos j with rfl | hpos
        · exact h0
        · exact hm4 j hpos hj
      · obtain ⟨rfl, hnone⟩ := hA e hres
        rcases Nat.eq_zero_or_pos k with rfl | hpos
        · exact absurd hk2 h0
        · exact absurd hk2 (hnone k hpos ((hk60 k).1 hk1))

/-- Witness for C3: with a status source completing at the fourth poll the
wait returns normally there; with one that is `"PENDING"` forever it times
out with the full ceiling elapsed. -/
theorem wait_for_report_completion_spec_witness :
    (∃ m, wait_for_report_completion (fun k => if k = 3 then "COMPLETED" else "PENDING") =
        WaitResult.completed m ∧
      (fun k : Nat => if k = 3 then "COMPLETED" else "PENDING") m = "COMPLETED" ∧
      ∀ j < m, (fun k : Nat => if k = 3 then "COMPLETED" else "PENDING") j ≠ "COMPLETED") ∧
    wait_for_report_completion (fun _ => "PENDING") = WaitResult.timeout maxWait := by
  constructor
  · exact (wait_for_report_completion_spec (fun k => if k = 3 then "COMPLETED" else "PENDING")).2.2.2
      ⟨3, by decide, by decide⟩
  · exact (wait_for_report_completion_spec (fun _ => "PENDING")).2.1.2
      (fun k _ => by decide)

/-! ### C9: make_api_call -/

lemma apiLoop_spec (st : Nat → Nat) :
    ∀ fuel attempt slept, attempt + fuel = max_attempts → attempt < max_attempts →
      (∀ k, attempt < k → k ≤ max_attempts →
        (∀ j, attempt < j → j < k → st j = 429) → st k ≠ 429 →
        apiLoop st fuel attempt slept =
          ApiResult.mk
            (if st k = 200 then ApiOutcome.json k
             else if 400 ≤ st k ∧ st k < 600 then ApiOutcome.httpError (st k)
             else ApiOutcome.valueError (st k))
            k (slept + 1000 * (k - attempt - 1))) ∧
      ((∀ j, attempt < j → j ≤ max_attempts → st j = 429) →
        apiLoop st fuel attempt slept =
          ApiResult.mk (ApiOutcome.httpError 429) max_attempts
            (slept + 1000 * (max_attempts - attempt - 1))) := by
  intro fuel
  induction fuel with
  | zero =>
    intro attempt slept h1 h2
    simp only [max_attempts] at h1 h2
    omega
  | succ fuel ih =>
    intro attempt slept h1 h2
    by_cases h200 : st (attempt + 1) = 200
    · constructor
      · intro k hk1 hk2 hbetween hk429
        have hke : k = attempt + 1 := by
          by_contra hne
          exact absurd (hbetween (attempt + 1) (by omega) (by omega)) (by simp [h200])
        subst hke
        simp [apiLoop, h200]
      · intro hall
        exact absurd (hall (attempt + 1) (by omega) (by omega)) (by simp [h200])
    · by_cases h429 : st (attempt + 1) = 429
      · by_cases hlt : attempt + 1 < max_attempts
        · have hrec : apiLoop st (fuel + 1) attempt slept =
              apiLoop st fuel (attempt + 1) (slept + 1000) := by
            simp [apiLoop, h200, h429, hlt]
          obtain ⟨ihA, ihB⟩ := ih (attempt + 1) (slept + 1000) (by omega) hlt
          constructor
          · intro k hk1 hk2 hbetween hk429
            have hka : attempt + 1 < k := by
              rcases Nat.lt_or_ge (attempt + 1) k with h | h
              · exact h
              · have hke : k = attempt + 1 := by omega
                exact absurd h429 (hke ▸ hk429)
            rw [hrec, ihA k hka hk2 (fun j hj1 hj2 => hbetween j (by omega) hj2) hk429]
            have : slept + 1000 + 1000 * (k - (attempt + 1) - 1) =
                slept + 1000 * (k - attempt - 1) := by
              have : k - attempt - 1 = (k - (attempt + 1) - 1) + 1 := by omega
              rw [this]; ring
            rw [this]
          · intro hall
            rw [hrec, ihB (fun j hj1 hj2 => hall j (by omega) hj2)]
            have : slept + 1000 + 1000 * (max_attempts - (attempt + 1) - 1) =
                slept + 1000 * (max_attempts - attempt - 1) := by
              have : max_attempts - attempt - 1 = (max_attempts - (attempt + 1) - 1) + 1 := by
                simp only [max_attempts] at hlt ⊢; omega
              rw [this]; ring
            rw [this]
        · have hae : attempt + 1 = max_attempts := by omega
          constructor
          · intro k hk1 hk2 hbetween hk429
            have hke : k = attempt + 1 := by omega
            exact absurd (hke ▸ hk429) (by simp [h429])
          · intro hall
            have h0 : max_attempts - attempt - 1 = 0 := by
              simp only [max_attempts] at *; omega
            have h429m : st max_attempts = 429 := hae ▸ h429
            have h200m : ¬st max_attempts = 200 := hae ▸ h200
            simp [apiLoop, h200, h429, hlt, hae, h0, h429m, h200m]
      · constructor
        · intro k hk1 hk2 hbetween hk429
          have hke : k = attempt + 1 := by
            by_contra hne
            exact absurd (hbetween (attempt + 1) (by omega) (by omega)) h429
          subst hke
          by_cases hrange : 400 ≤ st (attempt + 1) ∧ st (attempt + 1) < 600
          · simp [apiLoop, h200, h429, hrange]
          · simp [apiLoop, h200, h429, hrange]
        · intro hall
          exact absurd (hall (attempt + 1) (by omega) (by omega)) h429

/-- **C9.** `make_api_call` retries only on HTTP 429, sleeping a fixed 1000
seconds before each retry, for at most `max_attempts = 10` attempts, after
which the 429 is surfaced as an `HTTPError`; the first response whose status
is not 429 ends the loop immediately — returning the JSON on 200, raising
`HTTPError` on 4xx/5xx, `ValueError` otherwise — with no further attempts. -/
theorem make_api_call_spec (st : Nat → Nat) :
    (∀ k, 1 ≤ k → k ≤ max_attempts → (∀ j, 1 ≤ j → j < k → st j = 429) → st k ≠ 429 →
      make_api_call st =
        ApiResult.mk
          (if st k = 200 then ApiOutcome.json k
           else if 400 ≤ st k ∧ st k < 600 then ApiOutcome.httpError (st k)
           else ApiOutcome.valueError (st k))
          k (1000 * (k - 1))) ∧
    ((∀ j, 1 ≤ j → j ≤ max_attempts → st j = 429) →
      make_api_call st =
        ApiResult.mk (ApiOutcome.httpError 429) max_attempts
          (1000 * (max_attempts - 1))) := by
  obtain ⟨hA, hB⟩ := apiLoop_spec st max_attempts 0 0 (by omega) (by simp [max_attempts])
  constructor
  · intro k hk1 hk2 hbetween hk429
    simpa [make_api_call] using hA k hk1 hk2 (fun j hj1 hj2 => hbetween j hj1 hj2) hk429
  · intro hall
    simpa [make_api_call] using hB fun j hj1 hj2 => hall j hj1 hj2

/-- Witness for C9: a first-response 200 returns its JSON at once with no
sleeping; a 500 on the first response is surfaced at once as an `HTTPError`;
a permanently rate-limited endpoint is surfaced as the 429 `HTTPError` after
exactly 10 attempts and 9 fixed 1000-second waits. -/
theorem make_api_call_spec_witness :
    make_api_call (fun _ => 200) = ApiResult.mk (ApiOutcome.json 1) 1 0 ∧
    make_api_call (fun _ => 500) = ApiResult.mk (ApiOutcome.httpError 500) 1 0 ∧
    make_api_call (fun _ => 429) = ApiResult.mk (ApiOutcome.httpError 429) 10 9000 := by
  refine ⟨?_, ?_, ?_⟩
  · have := (make_api_call_spec (fun _ => 200)).1 1 (by omega) (by simp [max_attempts])
      (by omega) (by decide)
    simpa using this
  · have := (make_api_call_spec (fun _ => 500)).1 1 (by omega) (by simp [max_attempts])
      (by omega) (by decide)
    simpa using this
  · have := (make_api_call_spec (fun _ => 429)).2 (fun j _ _ => rfl)
    simpa [max_attempts] using this

/-! ### C6: error propagation on the report download -/

/-- **C6, counterexample.** The final archive download has no
`raise_for_status`: when the download URL answers 404 (a non-success status,
as `raise_for_status` itself confirms), `get_report_bytes` does not propagate
the error — it returns the failed response's body as the report bytes. -/
theorem get_report_bytes_swallows_error :
    get_report_bytes (fun _ => HttpResponse.mk 404 [78, 111]) (ReportData.mk ["u"]) =
      Except.ok [78, 111] ∧
    raise_for_status (HttpResponse.mk 404 [78, 111]) =
      Except.error (PyError.httpError 404) := by
  constructor
  · rfl
  · rfl

/-- **C6, amended.** Non-success statuses are propagated unchanged by the
steps that call `raise_for_status` (here the result-descriptor request of
`get_report_data`), but the final download of `get_report_bytes` performs no
status check: it returns the response body of the single download URL
regardless of the response's status. -/
theorem download_error_propagation (r : HttpResponse) (p : ReportData)
    (fetch : String → HttpResponse) (u : String) :
    (400 ≤ r.status → r.status < 600 →
      get_report_data r p = Except.error (PyError.httpError r.status)) ∧
    get_report_bytes fetch (ReportData.mk [u]) = Except.ok (fetch u).content := by
  constructor
  · intro h1 h2
    simp [get_report_data, raise_for_status, h1, h2]
  · rfl

/-- Witness for the amended C6: a 500 on the result-descriptor request is
raised as `HTTPError(500)`, while a 404 on the download itself yields the
error body as the "report". -/
theorem download_error_propagation_witness :
    get_report_data (HttpResponse.mk 500 []) (ReportData.mk []) =
      Except.error (PyError.httpError 500) ∧
    get_report_bytes (fun _ => HttpResponse.mk 404 [1, 2]) (ReportData.mk ["v"]) =
      Except.ok [1, 2] := by
  constructor
  · exact (download_error_propagation (HttpResponse.mk 500 []) (ReportData.mk [])
      (fun _ => HttpResponse.mk 404 [1, 2]) "v").1 (by decide) (by decide)
  · exact (download_error_propagation (HttpResponse.mk 500 []) (ReportData.mk [])
      (fun _ => HttpResponse.mk 404 [1, 2]) "v").2

/-! ### C7: read_zip atomicity -/

/-- **C7, counterexample.** A zip holding `data.csv` but no `metadata.csv`:
`read_zip` fails (the `KeyError` propagates), yet the holder is left with the
data table loaded — a partially-loaded state observable after the failed
open, contradicting "all three load or none is loaded". -/
theorem read_zip_not_atomic :
    read_zip (RaZip.mk "report/" [("report/data.csv", "D")]) Holder.init =
      (Holder.mk (some (RaZip.mk "report/" [("report/data.csv", "D")])) (some "D") none none,
        Except.error PyError.keyError) := by
  rfl

/-- **C7, amended.** `read_zip` loads the three members strictly in the order
data, metadata, reportContents, assigning each table to the holder the moment
it loads; a missing member raises `KeyError` out of the call and the holder
keeps exactly the tables loaded before the failing step (so only a failure on
the very first member leaves no table loaded). -/
theorem read_zip_sequential (z : RaZip) (h0 : Holder) :
    (∀ c1 c2 c3, zipOpen z (z.root ++ "data.csv") = Except.ok c1 →
      zipOpen z (z.root ++ "metadata.csv") = Except.ok c2 →
      zipOpen z (z.root ++ "reportContents.json") = Except.ok c3 →
      read_zip z h0 =
        (Holder.mk (some z) (some c1) (some c2) (some c3), Except.ok ReadZipRet.retNone)) ∧
    (zipOpen z (z.root ++ "data.csv") = Except.error PyError.keyError →
      read_zip z h0 =
        ({ h0 with ra_zip := some z }, Except.error PyError.keyError)) ∧
    (∀ c1, zipOpen z (z.root ++ "data.csv") = Except.ok c1 →
      zipOpen z (z.root ++ "metadata.csv") = Except.error PyError.keyError →
      read_zip z h0 =
        ({ h0 with ra_zip := some z, data := some c1 }, Except.error PyError.keyError)) ∧
    (∀ c1 c2, zipOpen z (z.root ++ "data.csv") = Except.ok c1 →
      zipOpen z (z.root ++ "metadata.csv") = Except.ok c2 →
      zipOpen z (z.root ++ "reportContents.json") = Except.error PyError.keyError →
      read_zip z h0 =
        ({ h0 with ra_zip := some z, data := some c1, metadata := some c2 },
          Except.error PyError.keyError)) := by
  refine ⟨?_, ?_, ?_, ?_⟩
  · intro c1 c2 c3 e1 e2 e3
    simp [read_zip, load_data, load_metadata, load_report_contents, e1, e2, e3]
  · intro e1
    simp [read_zip, load_data, e1, catchFnf]
  · intro c1 e1 e2
    simp [read_zip, load_data, load_metadata, e1, e2, catchFnf]
  · intro c1 c2 e1 e2 e3
    simp [read_zip, load_data, load_metadata, load_report_contents, e1, e2, e3, catchFnf]

/-- Witness for the amended C7: on a zip with `data.csv` and `metadata.csv`
but no `reportContents.json`, the failed open leaves both loaded tables in
the holder. -/
theorem read_zip_sequential_witness :
    read_zip (RaZip.mk "r/" [("r/data.csv", "D"), ("r/metadata.csv", "M")]) Holder.init =
      (Holder.mk (some (RaZip.mk "r/" [("r/data.csv", "D"), ("r/metadata.csv", "M")]))
        (some "D") (some "M") none, Except.error PyError.keyError) := by
  have h := (read_zip_sequential
    (RaZip.mk "r/" [("r/data.csv", "D"), ("r/metadata.csv", "M")]) Holder.init).2.2.2
  simpa [Holder.init] using h "D" "M" (by rfl) (by rfl) (by rfl)

/-! ### C8: segments_to_corridor input validation -/

/-- **C8.** An `out_format` other than `"wide"`/`"long"`, or `out_format =
"wide"` with a `wide_metric` other than `"speed"`/`"travel_time"` (including
an unspecified `wide_metric = None`), makes `segments_to_corridor` raise
`ValueError` with the source's message — uniformly in the archive data, i.e.
before any formatting or aggregation is consulted. -/
theorem segments_to_corridor_validation (rows : List FRow) (meta : List MetaRow)
    (rc : ReportContents) (fmt : String) (wm : Option String) :
    (¬(fmt = "wide" ∨ fmt = "long") →
      segments_to_corridor rows meta rc fmt wm =
        Except.error ("out_format is '" ++ fmt ++ "', should be 'wide' or 'long'")) ∧
    (fmt = "wide" → ¬(wm = some "speed" ∨ wm = some "travel_time") →
      segments_to_corridor rows meta rc fmt wm =
        Except.error ("wide_metric is '" ++ fmt ++ "', should be 'speed' or 'travel_time'")) := by
  constructor
  · intro h
    simp [segments_to_corridor, h]
  · intro h1 h2
    subst h1
    simp [segments_to_corridor, h2]

/-- Witness for C8: `out_format="tall"` and `out_format="wide"` with
`wide_metric=None` both fail with the source's messages, on concrete data. -/
theorem segments_to_corridor_validation_witness :
    segments_to_corridor [] [] (ReportContents.mk []) "tall" none =
      Except.error "out_format is 'tall', should be 'wide' or 'long'" ∧
    segments_to_corridor [] [] (ReportContents.mk []) "wide" none =
      Except.error "wide_metric is 'wide', should be 'speed' or 'travel_time'" := by
  constructor
  · have h := (segments_to_corridor_validation [] [] (ReportContents.mk []) "tall" none).1
      (by decide)
    simpa using h
  · have h := (segments_to_corridor_validation [] [] (ReportContents.mk []) "wide" none).2
      rfl (by decide)
    simpa using h

/-! ### C10: speed_map_segs_to_geojson leaves its input unmodified -/

/-- **C10.** `speed_map_segs_to_geojson` never modifies its input: the
caller-visible list after the call is the input itself, so every input dict
keeps exactly its original entries (in particular its `fromStop`, `toStop`
and `pathLocs`, and no added `order` key); the deletions, the `order`
insertion and the `pathLocs` pop land on the deep copy, whose transform is
what the output features carry. -/
theorem speed_map_segs_to_geojson_frame (l : List Dict) :
    (speed_map_segs_to_geojson l).2 = l ∧
    ∀ i d, l[i]? = some d →
      (speed_map_segs_to_geojson l).2[i]? = some d ∧
      (speed_map_segs_to_geojson l).1.features[i]? = some (buildFeature i d) := by
  refine ⟨rfl, ?_⟩
  intro i d hd
  refine ⟨hd, ?_⟩
  show (l.enum.map fun p => buildFeature p.1 p.2)[i]? = some (buildFeature i d)
  rw [List.getElem?_map, List.getElem?_enum, hd]
  rfl

/-- Witness for C10: a concrete one-segment list is returned unchanged while
the output feature got the transformed copy. -/
theorem speed_map_segs_to_geojson_frame_witness :
    (speed_map_segs_to_geojson [[("fromStop", PyVal.str "a"), ("toStop", PyVal.str "b"),
        ("pathLocs", PyVal.locs [PathLoc.mk 1 2]), ("speed", PyVal.num 3)]]).2[0]? =
      some [("fromStop", PyVal.str "a"), ("toStop", PyVal.str "b"),
        ("pathLocs", PyVal.locs [PathLoc.mk 1 2]), ("speed", PyVal.num 3)] ∧
    (speed_map_segs_to_geojson [[("fromStop", PyVal.str "a"), ("toStop", PyVal.str "b"),
        ("pathLocs", PyVal.locs [PathLoc.mk 1 2]), ("speed", PyVal.num 3)]]).1.features[0]? =
      some (buildFeature 0 [("fromStop", PyVal.str "a"), ("toStop", PyVal.str "b"),
        ("pathLocs", PyVal.locs [PathLoc.mk 1 2]), ("speed", PyVal.num 3)]) := by
  exact (speed_map_segs_to_geojson_frame [[("fromStop", PyVal.str "a"),
    ("toStop", PyVal.str "b"), ("pathLocs", PyVal.locs [PathLoc.mk 1 2]),
    ("speed", PyVal.num 3)]]).2 0 _ rfl

/-! ### C1: the full-coverage filter -/

/-- Membership characterization of the aggregated-and-filtered frame. -/
lemma mem_create_data_agg (rows : List FRow) (meta : List MetaRow) (rc : ReportContents)
    (a : AggRow) :
    a ∈ create_data_agg rows meta rc ↔
      ∃ k ∈ gkeys rows, ∃ c, configLookup rc k.1 = some c ∧
        c.xdSegIds.length = gcount rows k ∧
        a = AggRow.mk k (gsum rows k) (corridorLength meta c.xdSegIds) c.xdSegIds.length
          (corridorLength meta c.xdSegIds / gsum rows k * 60) := by
  simp only [create_data_agg, List.mem_filterMap]
  constructor
  · rintro ⟨k, hk, hfk⟩
    rcases hc : configLookup rc k.1 with _ | c
    · simp [hc] at hfk
    · simp only [hc] at hfk
      by_cases hcnt : c.xdSegIds.length = gcount rows k
      · rw [if_pos hcnt] at hfk
        exact ⟨k, hk, c, hc, hcnt, (Option.some.inj hfk).symm⟩
      · rw [if_neg hcnt] at hfk
        simp at hfk
  · rintro ⟨k, hk, c, hc, hcnt, rfl⟩
    refine ⟨k, hk, ?_⟩
    simp only [hc, if_pos hcnt]

/-- **C1.** The aggregated output contains a row for a
`(corridor, date, time-interval)` group — a key with at least one observation
— exactly when the number of observation rows in the group equals the
configured segment count of the corridor (`len(corridor["xdSegIds"])` from
the report contents); a group with fewer (or more) observed segments is
entirely absent.  Rows only ever arise from groups present in the data. -/
theorem create_data_agg_coverage (rows : List FRow) (meta : List MetaRow)
    (rc : ReportContents) :
    (∀ a ∈ create_data_agg rows meta rc, a.key ∈ gkeys rows) ∧
    ∀ k c, configLookup rc k.1 = some c → k ∈ gkeys rows →
      ((∃ a ∈ create_data_agg rows meta rc, a.key = k) ↔
        gcount rows k = c.xdSegIds.length) := by
  constructor
  · intro a ha
    obtain ⟨k, hk, c, hc, hcnt, rfl⟩ := (mem_create_data_agg rows meta rc a).mp ha
    exact hk
  · intro k c hc hk
    constructor
    · rintro ⟨a, ha, hak⟩
      obtain ⟨k', hk', c', hc', hcnt', rfl⟩ := (mem_create_data_agg rows meta rc a).mp ha
      have hkk : k' = k := hak
      subst hkk
      rw [hc'] at hc
      obtain rfl : c' = c := Option.some.inj hc
      exact hcnt'.symm
    · intro hcnt
      refine ⟨AggRow.mk k (gsum rows k) (corridorLength meta c.xdSegIds) c.xdSegIds.length
        (corridorLength meta c.xdSegIds / gsum rows k * 60), ?_, rfl⟩
      exact (mem_create_data_agg rows meta rc _).mpr ⟨k, hk, c, hc, hcnt.symm, rfl⟩

/-- A small synthetic archive: corridor `"C"` of two configured segments, of
lengths 1.0 and 2.0 miles; both segments report 3.0 minutes in the 08:00
interval, only one reports in the 09:00 interval. -/
def exRows : List FRow :=
  [FRow.mk "C" "2020-01-06" "08:00" 101 3, FRow.mk "C" "2020-01-06" "08:00" 102 3,
   FRow.mk "C" "2020-01-06" "09:00" 101 4]

def exMeta : List MetaRow := [MetaRow.mk 101 1, MetaRow.mk 102 2]

def exRc : ReportContents := ReportContents.mk [Corridor.mk "C" [101, 102]]

/-- Witness for C1: in the synthetic archive, the fully-covered 08:00 group
is present in the output and the partially-covered 09:00 group (one of two
configured segments reporting) is entirely absent. -/
theorem create_data_agg_coverage_witness :
    (∃ a ∈ create_data_agg exRows exMeta exRc, a.key = ("C", "2020-01-06", "08:00")) ∧
    ¬(∃ a ∈ create_data_agg exRows exMeta exRc, a.key = ("C", "2020-01-06", "09:00")) := by
  constructor
  · exact ((create_data_agg_coverage exRows exMeta exRc).2 ("C", "2020-01-06", "08:00")
      (Corridor.mk "C" [101, 102]) (by decide) (by decide)).mpr (by decide)
  · intro h
    have := ((create_data_agg_coverage exRows exMeta exRc).2 ("C", "2020-01-06", "09:00")
      (Corridor.mk "C" [101, 102]) (by decide) (by decide)).mp h
    exact absurd this (by decide)

/-! ### C2: the derived speed formula -/

/-- **C2.** Every retained row's travel time is the group's summed travel
time and its speed is the corridor length — the metadata lengths summed over
the corridor's configured member segments — divided by that summed travel
time, times 60; on the synthetic archive (segment lengths 1.0 and 2.0 miles,
both segments reporting 3.0 minutes in one interval) the single retained row
has speed (1+2)/(3+3)*60 = 30. -/
theorem create_data_agg_speed (rows : List FRow) (meta : List MetaRow)
    (rc : ReportContents) :
    (∀ a ∈ create_data_agg rows meta rc,
      ∃ c, configLookup rc a.key.1 = some c ∧
        a.travelTime = gsum rows a.key ∧
        a.corridorLen = corridorLength meta c.xdSegIds ∧
        a.speed = corridorLength meta c.xdSegIds / gsum rows a.key * 60) ∧
    create_data_agg exRows exMeta exRc =
      [AggRow.mk ("C", "2020-01-06", "08:00") 6 3 2 30] := by
  constructor
  · intro a ha
    obtain ⟨k, hk, c, hc, hcnt, rfl⟩ := (mem_create_data_agg rows meta rc a).mp ha
    exact ⟨c, hc, rfl, rfl, rfl⟩
  · have hkeys : gkeys exRows = [("C", "2020-01-06", "08:00"), ("C", "2020-01-06", "09:00")] := by
      decide
    have hsum : gsum exRows ("C", "2020-01-06", "08:00") = 6 := by
      simp +decide [gsum, exRows]
      norm_num
    have hlen : corridorLength exMeta [101, 102] = 3 := by
      simp +decide [corridorLength, exMeta]
      norm_num
    have hspeed : (3 : ℚ) / 6 * 60 = 30 := by norm_num
    simp only [create_data_agg, hkeys, List.filterMap_cons, List.filterMap_nil]
    simp +decide [configLookup, exRc, hsum, hlen, hspeed]

/-- Witness for C2: the speed formula instantiated at the synthetic archive's
single retained row. -/
theorem create_data_agg_speed_witness :
    ∃ c, configLookup exRc "C" = some c ∧
      (AggRow.mk ("C", "2020-01-06", "08:00") 6 3 2 30).travelTime =
        gsum exRows ("C", "2020-01-06", "08:00") ∧
      (AggRow.mk ("C", "2020-01-06", "08:00") 6 3 2 30).corridorLen =
        corridorLength exMeta c.xdSegIds ∧
      (AggRow.mk ("C", "2020-01-06", "08:00") 6 3 2 30).speed =
        corridorLength exMeta c.xdSegIds / gsum exRows ("C", "2020-01-06", "08:00") * 60 := by
  have h := (create_data_agg_speed exRows exMeta exRc).1
    (AggRow.mk ("C", "2020-01-06", "08:00") 6 3 2 30)
    (by rw [(create_data_agg_speed exRows exMeta exRc).2]; exact List.mem_singleton.mpr rfl)
  simpa using h

/-! ### Counting helpers for the volume reshaper -/

section CountingHelpers

variable {α β γ : Type} [DecidableEq γ]

/-- Distinct-value count of a full grid under a jointly injective key. -/
lemma grid_card (as : List α) (bs : List β) (f : α → β → γ)
    (ha : as.Nodup) (hb : bs.Nodup)
    (hinj : ∀ a ∈ as, ∀ b ∈ bs, ∀ a2 ∈ as, ∀ b2 ∈ bs, f a b = f a2 b2 → a = a2 ∧ b = b2) :
    ((as.flatMap fun a => bs.map (f a)).toFinset).card = as.length * bs.length := by
  induction as with
  | nil => simp
  | cons a as ih =>
    have hand : a ∉ as ∧ as.Nodup := List.nodup_cons.mp ha
    have hdisj : Disjoint (bs.map (f a)).toFinset
        ((as.flatMap fun a2 => bs.map (f a2)).toFinset) := by
      rw [Finset.disjoint_left]
      intro x hx1 hx2
      rw [List.mem_toFinset, List.mem_map] at hx1
      obtain ⟨b, hb1, rfl⟩ := hx1
      rw [List.mem_toFinset, List.mem_flatMap] at hx2
      obtain ⟨a2, ha2, hx2⟩ := hx2
      rw [List.mem_map] at hx2
      obtain ⟨b2, hb2, heq⟩ := hx2
      have := (hinj a (by simp) b hb1 a2 (by simp [ha2]) b2 hb2 heq.symm).1
      exact hand.1 (this ▸ ha2)
    have hcard1 : (bs.map (f a)).toFinset.card = bs.length := by
      rw [List.toFinset_card_of_nodup]
      · exact List.length_map bs _
      · exact List.Nodup.map_on
          (fun x hx y hy hxy => (hinj a (by simp) x hx a (by simp) y hy hxy).2) hb
    calc ((a :: as).flatMap fun a2 => bs.map (f a2)).toFinset.card
        = ((bs.map (f a)).toFinset ∪ (as.flatMap fun a2 => bs.map (f a2)).toFinset).card := by
          simp [List.flatMap_cons, List.toFinset_append]
      _ = bs.length + as.length * bs.length := by
          rw [Finset.card_union_of_disjoint hdisj, hcard1,
            ih hand.2 (fun x hx y hy x2 hx2 y2 hy2 he =>
              hinj x (by simp [hx]) y hy x2 (by simp [hx2]) y2 hy2 he)]
      _ = (a :: as).length * bs.length := by simp [Nat.succ_mul]; ring

/-- Collapsing an inner dimension the key ignores. -/
lemma toFinset_flatMap_inner_const (as : List α) (bs : List β) (g : α → γ) (hb : bs ≠ []) :
    ((as.flatMap fun a => bs.map fun _ => g a).toFinset) = (as.map g).toFinset := by
  induction as with
  | nil => simp
  | cons a as ih =>
    have h1 : (bs.map fun _ => g a).toFinset = {g a} := by
      ext x
      simp only [List.mem_toFinset, List.mem_map, Finset.mem_singleton]
      constructor
      · rintro ⟨b, hb1, rfl⟩; rfl
      · rintro rfl
        obtain ⟨b, hbmem⟩ := List.exists_mem_of_ne_nil bs hb
        exact ⟨b, hbmem, rfl⟩
    rw [List.flatMap_cons, List.toFinset_append, h1, ih, List.map_cons, List.toFinset_cons,
      Finset.insert_eq]

/-- Collapsing an outer dimension the inner list ignores. -/
lemma toFinset_flatMap_outer_const (as : List α) (l : List γ) (ha : as ≠ []) :
    ((as.flatMap fun _ => l).toFinset) = l.toFinset := by
  induction as with
  | nil => cases ha rfl
  | cons a as ih =>
    rcases eq_or_ne as [] with rfl | hne
    · simp
    · rw [List.flatMap_cons, List.toFinset_append, ih hne]
      simp

lemma toFinset_flatMap_congr (as : List α) (f g : α → List γ)
    (h : ∀ a ∈ as, (f a).toFinset = (g a).toFinset) :
    (as.flatMap f).toFinset = (as.flatMap g).toFinset := by
  induction as with
  | nil => simp
  | cons a as ih =>
    simp only [List.flatMap_cons, List.toFinset_append]
    rw [h a (by simp), ih (fun x hx => h x (by simp [hx]))]

lemma map_const_sum (l : List α) (n : Nat) : (l.map fun _ => n).sum = l.length * n := by
  induction l with
  | nil => simp
  | cons a l ih => simp [ih, Nat.succ_mul]; ring

end CountingHelpers

lemma time_cols_nodup : time_cols.Nodup := by decide

lemma time_cols_ne_nil : time_cols ≠ [] := by decide

lemma hourStartSec_lt : ∀ h ∈ time_cols, hourStartSec h < 86400 := by decide

lemma hourStartSec_inj :
    ∀ h1 ∈ time_cols, ∀ h2 ∈ time_cols, hourStartSec h1 = hourStartSec h2 → h1 = h2 := by
  decide

lemma rowTimestamp_inj :
    ∀ h1 ∈ time_cols, ∀ h2 ∈ time_cols, ∀ d1 d2 : Nat,
      rowTimestamp d1 h1 = rowTimestamp d2 h2 → h1 = h2 ∧ d1 = d2 := by
  intro h1 hm1 h2 hm2 d1 d2 heq
  have b1 := hourStartSec_lt h1 hm1
  have b2 := hourStartSec_lt h2 hm2
  simp only [rowTimestamp] at heq
  have hs : hourStartSec h1 = hourStartSec h2 ∧ d1 = d2 := by omega
  exact ⟨hourStartSec_inj h1 hm1 h2 hm2 hs.1, hs.2⟩

/-! ### C4: the four aggregation modes' row counts -/

/-- **C4.** On a valid input grid of `L` lanes by `D` days, `ctvr_to_long`
emits `24·L·D` rows with neither flag, `24·D` rows with `sum_lanes` only,
`L·D` rows with `sum_hours` only, and `D` rows with both flags. -/
theorem ctvr_to_long_row_counts (dates : List Nat) (lanes : List Int) (day : Nat → String)
    (vols : Nat → Int → String → ℚ) (hd : dates.Nodup) (hl : lanes.Nodup)
    (hlne : lanes ≠ []) :
    outLen (ctvr_to_long (mkCtvrRows dates lanes day vols) false false) =
      24 * (lanes.length * dates.length) ∧
    outLen (ctvr_to_long (mkCtvrRows dates lanes day vols) true false) = 24 * dates.length ∧
    outLen (ctvr_to_long (mkCtvrRows dates lanes day vols) false true) =
      lanes.length * dates.length ∧
    outLen (ctvr_to_long (mkCtvrRows dates lanes day vols) true true) = dates.length := by
  have hrlen : (mkCtvrRows dates lanes day vols).length = dates.length * lanes.length := by
    rw [mkCtvrRows, List.length_flatMap]
    have h1 : (List.map (List.length ∘ fun d => lanes.map fun l =>
        CtvrRow.mk d (day d) l (vols d l)) dates) = dates.map fun _ => lanes.length := by
      simp [Function.comp_def]
    rw [h1, map_const_sum]
  have htlen : time_cols.length = 24 := rfl
  refine ⟨?_, ?_, ?_, ?_⟩
  · have hb : ctvr_to_long (mkCtvrRows dates lanes day vols) false false =
        CtvrOut.raw ((meltCtvr (mkCtvrRows dates lanes day vols)).map
          fun m => (rowTimestamp m.date m.hour, m.lane, m.volume)) := by
      simp [ctvr_to_long]
    rw [hb]
    simp only [outLen]
    rw [List.length_map, meltCtvr, List.length_flatMap]
    have h1 : (List.map (List.length ∘ fun h => (mkCtvrRows dates lanes day vols).map
        fun r => MeltRow.mk r.date r.day r.lane h (r.vol h)) time_cols) =
        time_cols.map fun _ => (mkCtvrRows dates lanes day vols).length := by
      simp [Function.comp_def]
    rw [h1, map_const_sum, htlen, hrlen]
    ring
  · have hb : ctvr_to_long (mkCtvrRows dates lanes day vols) true false =
        CtvrOut.byTs ((((meltCtvr (mkCtvrRows dates lanes day vols)).map
            fun m => rowTimestamp m.date m.hour).dedup).map fun t =>
          (t, (((meltCtvr (mkCtvrRows dates lanes day vols)).filter
            fun m => rowTimestamp m.date m.hour = t).map MeltRow.volume).sum)) := by
      simp [ctvr_to_long]
    rw [hb]
    simp only [outLen]
    rw [List.length_map, ← List.card_toFinset]
    have hkey : ((meltCtvr (mkCtvrRows dates lanes day vols)).map
        fun m => rowTimestamp m.date m.hour) =
        time_cols.flatMap fun h => dates.flatMap fun d => lanes.map fun _ =>
          rowTimestamp d h := by
      simp [meltCtvr, mkCtvrRows, List.map_flatMap, List.map_map, Function.comp_def]
    rw [hkey]
    rw [toFinset_flatMap_congr time_cols _ (fun h => dates.map fun d => rowTimestamp d h)
      (fun h hh => toFinset_flatMap_inner_const dates lanes (fun d => rowTimestamp d h) hlne)]
    rw [grid_card time_cols dates (fun h d => rowTimestamp d h) time_cols_nodup hd
      (fun a ha b hb a2 ha2 b2 hb2 he => (rowTimestamp_inj a ha a2 ha2 b b2 he))]
    rw [htlen]
  · have hb : ctvr_to_long (mkCtvrRows dates lanes day vols) false true =
        CtvrOut.byDateLane ((((meltCtvr (mkCtvrRows dates lanes day vols)).map
            fun m => (m.date, m.lane)).dedup).map fun k =>
          (k, (((meltCtvr (mkCtvrRows dates lanes day vols)).filter
            fun m => (m.date, m.lane) = k).map MeltRow.volume).sum)) := by
      simp [ctvr_to_long]
    rw [hb]
    simp only [outLen]
    rw [List.length_map, ← List.card_toFinset]
    have hkey : ((meltCtvr (mkCtvrRows dates lanes day vols)).map
        fun m => (m.date, m.lane)) =
        time_cols.flatMap fun _ => dates.flatMap fun d => lanes.map fun l => (d, l) := by
      simp [meltCtvr, mkCtvrRows, List.map_flatMap, List.map_map, Function.comp_def]
    rw [hkey, toFinset_flatMap_outer_const time_cols _ time_cols_ne_nil]
    rw [grid_card dates lanes (fun d l => (d, l)) hd hl
      (fun a ha b hb a2 ha2 b2 hb2 he => by simpa using he)]
    ring
  · have hb : ctvr_to_long (mkCtvrRows dates lanes day vols) true true =
        CtvrOut.byDate ((((meltCtvr (mkCtvrRows dates lanes day vols)).map
            fun m => m.date).dedup).map fun d =>
          (d, (((meltCtvr (mkCtvrRows dates lanes day vols)).filter
            fun m => m.date = d).map MeltRow.volume).sum)) := by
      simp [ctvr_to_long]
    rw [hb]
    simp only [outLen]
    rw [List.length_map, ← List.card_toFinset]
    have hkey : ((meltCtvr (mkCtvrRows dates lanes day vols)).map fun m => m.date) =
        time_cols.flatMap fun _ => dates.flatMap fun d => lanes.map fun _ => d := by
      simp [meltCtvr, mkCtvrRows, List.map_flatMap, List.map_map, Function.comp_def]
    rw [hkey, toFinset_flatMap_outer_const time_cols _ time_cols_ne_nil,
      toFinset_flatMap_inner_const dates lanes (fun d => d) hlne]
    have hid : (dates.map fun d => d) = dates := List.map_id' dates
    rw [hid]
    exact List.toFinset_card_of_nodup hd

/-- Witness for C4: two days, two lanes — 96, 48, 4 and 2 rows. -/
theorem ctvr_to_long_row_counts_witness :
    outLen (ctvr_to_long (mkCtvrRows [0, 1] [1, 2] (fun _ => "Mon") (fun _ _ _ => 1))
      false false) = 96 ∧
    outLen (ctvr_to_long (mkCtvrRows [0, 1] [1, 2] (fun _ => "Mon") (fun _ _ _ => 1))
      true false) = 48 ∧
    outLen (ctvr_to_long (mkCtvrRows [0, 1] [1, 2] (fun _ => "Mon") (fun _ _ _ => 1))
      false true) = 4 ∧
    outLen (ctvr_to_long (mkCtvrRows [0, 1] [1, 2] (fun _ => "Mon") (fun _ _ _ => 1))
      true true) = 2 := by
  have h := ctvr_to_long_row_counts [0, 1] [1, 2] (fun _ => "Mon") (fun _ _ _ => 1)
    (by decide) (by decide) (by decide)
  refine ⟨?_, ?_, ?_, ?_⟩
  · have := h.1
    norm_num at this
    exact this
  · have := h.2.1
    norm_num at this
    exact this
  · have := h.2.2.1
    norm_num at this
    exact this
  · have := h.2.2.2
    norm_num at this
    exact this

/-! ### C5: midnight ordering of the constructed timestamps -/

/-- **C5.** The timestamp built for the `"0000-0100"` row on date `d` lies
strictly between the previous date's `"2300-2400"` row and the same date's
`"0100-0200"` row; in general the constructed timestamps are ordered
lexicographically by (date, start time) and are distinct across all hours of
all days — midnight never collapses into the wrong day. -/
theorem ctvr_midnight_order :
    (∀ d : Nat, 1 ≤ d →
      rowTimestamp d "0000-0100" < rowTimestamp d "0100-0200" ∧
      rowTimestamp (d - 1) "2300-2400" < rowTimestamp d "0000-0100") ∧
    (∀ d1 d2 : Nat, ∀ h1 ∈ time_cols, ∀ h2 ∈ time_cols,
      (rowTimestamp d1 h1 < rowTimestamp d2 h2 ↔
        (d1 < d2 ∨ (d1 = d2 ∧ hourStartSec h1 < hourStartSec h2)))) ∧
    (∀ d1 d2 : Nat, ∀ h1 ∈ time_cols, ∀ h2 ∈ time_cols,
      rowTimestamp d1 h1 = rowTimestamp d2 h2 → d1 = d2 ∧ h1 = h2) := by
  refine ⟨?_, ?_, ?_⟩
  · intro d hd
    have h1 : hourStartSec "0000-0100" = 0 := rfl
    have h2 : hourStartSec "0100-0200" = 3600 := rfl
    have h3 : hourStartSec "2300-2400" = 82800 := rfl
    constructor
    · simp only [rowTimestamp, h1, h2]; omega
    · simp only [rowTimestamp, h1, h3]; omega
  · intro d1 d2 h1 hm1 h2 hm2
    have b1 := hourStartSec_lt h1 hm1
    have b2 := hourStartSec_lt h2 hm2
    simp only [rowTimestamp]
    omega
  · intro d1 d2 h1 hm1 h2 hm2 heq
    have h := rowTimestamp_inj h1 hm1 h2 hm2 d1 d2 heq
    exact ⟨h.2, h.1⟩

/-- Witness for C5: on day 1 midnight sits strictly between day 0's 23:00 row
and day 1's 01:00 row, and the general ordering applied at 07:00 < 08:00. -/
theorem ctvr_midnight_order_witness :
    (rowTimestamp 1 "0000-0100" < rowTimestamp 1 "0100-0200" ∧
      rowTimestamp 0 "2300-2400" < rowTimestamp 1 "0000-0100") ∧
    rowTimestamp 7 "0700-0800" < rowTimestamp 7 "0800-0900" := by
  constructor
  · exact ctvr_midnight_order.1 1 (by omega)
  · exact (ctvr_midnight_order.2.1 7 7 "0700-0800" (by decide) "0800-0900" (by decide)).mpr
      (Or.inr ⟨rfl, by decide⟩)

end Dpd
